import Mathlib

set_option maxHeartbeats 1000000

/-!
Shallow embedding of the RWhiSymp speech-capture UI.

The repository has two component variants and two hooks that carry all the
state the specification talks about:

* `WebSpeech` embeds `src/components/SpeechRecognitionApp.tsx` (first
  variant, Web Speech API): the recording state machine, the duration
  timer, the `onresult` handler, export and clear.
* `WhisperApp` embeds the second variant of the same file (transformers
  pipeline): `processAudioChunk` with its chunk-buffer trimming.
* `Whisper` embeds `useWhisperTranscription` (model loading with CPU
  fallback, `processAudio`, `translateText`, `clearAll`).
* `Realtime` embeds `RealtimeWhisperApp` (export of the
  Original/Translation composite).
* `Logger` embeds `useConsoleLogger` (`addLog`, `clearLogs`).

React `useState` setters are modelled as pure state transformers; browser
timers as explicit `tick` events that can only fire while the interval
handle is installed (`timerOn`); network and model calls as oracle
parameters enumerating the outcomes the code distinguishes.  Toasts are
recorded as returned values.
-/

namespace RWhiSymp

/-- JavaScript `String.prototype.trim()`: removes leading and trailing
whitespace, modelled structurally over the character list. -/
def jsTrim (s : String) : String :=
  String.mk ((s.data.dropWhile Char.isWhitespace).reverse.dropWhile Char.isWhitespace).reverse

/-- JavaScript `s.slice(0, 19)`: the first 19 characters. -/
def jsSlice19 (s : String) : String :=
  String.mk (s.data.take 19)

/-- JavaScript `s.replace(/:/g, '-')`: every colon replaced by a dash. -/
def dashColons (s : String) : String :=
  String.mk (s.data.map (fun c => if c = ':' then '-' else c))

/-- A user-facing toast notification; `destructive` mirrors the
`variant: "destructive"` option of the `toast` calls. -/
structure Toast where
  title : String
  description : String
  destructive : Bool
deriving DecidableEq

/-- True when some toast in the list is destructive. -/
def hasDestructiveToast (ts : List Toast) : Bool :=
  ts.any (fun t => t.destructive)

/-- A downloadable file produced by the export handlers: the anchor
download name, the blob MIME type, and the blob content. -/
structure ExportFile where
  name : String
  mime : String
  content : String
deriving DecidableEq

namespace WebSpeech

/-- One entry of `event.results` as read by `recognition.onresult`:
the best transcript and the `isFinal` flag. -/
structure SpeechResult where
  transcript : String
  isFinal : Bool

/-- Component state of `SpeechRecognitionApp` (Web Speech variant):
`isRecording`, `isProcessing` and `duration` from `recordingState`, the
`transcription` string, plus `timerOn` (whether `intervalRef` holds a
live interval) and `hasRecognition` (whether `recognitionRef.current`
is set). -/
structure AppState where
  isRecording : Bool
  isProcessing : Bool
  duration : Nat
  timerOn : Bool
  hasRecognition : Bool
  transcription : String
deriving DecidableEq

/-- Body of the `onresult` loop for one result: a final result appends
`transcript + ' '` via `setTranscription(prev => prev + transcript + ' ')`,
an interim result is ignored. -/
def handleFinal (acc : String) (r : SpeechResult) : String :=
  if r.isFinal then acc ++ r.transcript ++ " " else acc

/-- The `recognition.onresult` handler applied to the slice of results
from `event.resultIndex` on, in arrival order. -/
def onresult (prev : String) (results : List SpeechResult) : String :=
  results.foldl handleFinal prev

/-- Concatenation, in arrival order, of the final transcripts each
followed by a single space (the shape the specification describes). -/
def finalsConcat : List SpeechResult → String
  | [] => ""
  | r :: rs => (if r.isFinal then r.transcript ++ " " else "") ++ finalsConcat rs

/-- `startRecording` success path: `supported` is the browser-support
check; when it holds the handler sets `isRecording`, resets `duration`
to 0, stores the recognition object and installs the 1-second interval.
When unsupported it returns after a toast with no state change. -/
def startRecording (supported : Bool) (s : AppState) : AppState :=
  if supported then
    { s with isRecording := true, duration := 0, timerOn := true, hasRecognition := true }
  else s

/-- One firing of the installed interval callback:
`setRecordingState(prev => ({ ...prev, duration: prev.duration + 1 }))`.
The callback can only fire while the interval is installed. -/
def tick (s : AppState) : AppState :=
  if s.timerOn then { s with duration := s.duration + 1 } else s

/-- `stopRecording`: guarded by `recognitionRef.current &&
recordingState.isRecording`; clears `isRecording` and the interval. -/
def stopRecording (s : AppState) : AppState :=
  if s.hasRecognition && s.isRecording then
    { s with isRecording := false, timerOn := false }
  else s

/-- The `recognition.onend` handler: restarts recognition exactly when
`recordingState.isRecording` still holds. -/
def onendRestart (isRecording : Bool) : Bool := isRecording

/-- `clearTranscription`: `setTranscription('')`. -/
def clearTranscription (s : AppState) : AppState :=
  { s with transcription := "" }

/-- The download name
`` transcription-${new Date().toISOString().slice(0, 19).replace(/:/g, '-')}.txt ``
as a function of the ISO date-time string. -/
def fileName (iso : String) : String :=
  "transcription-" ++ dashColons (jsSlice19 iso) ++ ".txt"

/-- `exportTranscription`: on empty trimmed text, a destructive toast and
no file; otherwise a `text/plain` blob holding the transcription,
downloaded under `fileName`.  No component state is written on either
path, so the state is returned unchanged. -/
def exportTranscription (iso : String) (s : AppState) :
    AppState × Option ExportFile × Toast :=
  if jsTrim s.transcription == "" then
    (s, none, ⟨"Nothing to export", "Please record some audio first", true⟩)
  else
    (s, some ⟨fileName iso, "text/plain", s.transcription⟩,
     ⟨"Export successful", "Transcription has been downloaded", false⟩)

/-- Disabled flag of the copy button in `TranscriptionDisplay`:
`disabled={!transcription.trim()}`. -/
def copyDisabled (transcription : String) : Bool := jsTrim transcription == ""

/-- Disabled flag of the export button in `TranscriptionDisplay`. -/
def exportDisabled (transcription : String) : Bool := jsTrim transcription == ""

/-- Disabled flag of the clear button in `TranscriptionDisplay`. -/
def clearDisabled (transcription : String) : Bool := jsTrim transcription == ""

/-- `copyToClipboard` in `TranscriptionDisplay`: the string handed to
`navigator.clipboard.writeText`, or `none` when the guard on trimmed-empty
text returns early. -/
def copyToClipboard (transcription : String) : Option String :=
  if jsTrim transcription == "" then none else some transcription

/-- JavaScript `String.prototype.padStart(len, c)` for a one-character
pad: prepends copies of `c` until the length reaches `len`, never
removing characters. -/
def padStart (len : Nat) (c : Char) (s : String) : String :=
  String.mk (List.replicate (len - s.length) c) ++ s

/-- `formatDuration`: minutes `Math.floor(seconds / 60)` and seconds
`seconds % 60`, each rendered in decimal and padded to two digits. -/
def formatDuration (seconds : Nat) : String :=
  padStart 2 '0' (toString (seconds / 60)) ++ ":" ++ padStart 2 '0' (toString (seconds % 60))

end WebSpeech

namespace Logger

/-- One captured console entry (`LogEntry` in `useConsoleLogger.ts`);
the timestamp is kept as part of the opaque `id`. -/
structure LogEntry where
  id : String
  level : String
  message : String
  source : String
deriving DecidableEq

/-- `addLog`: a no-op while capture is off, otherwise
`setLogs(prev => [newLog, ...prev.slice(0, 999)])`. -/
def addLog (isCapturing : Bool) (entry : LogEntry) (logs : List LogEntry) :
    List LogEntry :=
  if isCapturing then entry :: logs.take 999 else logs

/-- `clearLogs`: `setLogs([])`. -/
def clearLogs (_logs : List LogEntry) : List LogEntry := []

end Logger

/-- Outcome of one `transcriber.current(...)` call as the code
distinguishes them: a result that may or may not carry a `text` field,
or a thrown error (which also stands for a throw in the preceding blob
and buffer conversions). -/
inductive TranscribeOutcome where
  | ok (text : Option String)
  | err
deriving DecidableEq

namespace WhisperApp

/-- `processAudioChunk` of the transformers variant of
`SpeechRecognitionApp`.  Audio chunks are opaque blob identifiers.
Returns the transcription state and the retained
`audioChunksRef.current` after the run.  An early return happens when
the model is not loaded or the buffer is empty; on a thrown error the
catch block only logs, so neither the transcription nor the buffer
changes; otherwise a textful result is appended and the buffer is cut
to `slice(-5)` whenever its length exceeds 10. -/
def processAudioChunk (modelLoaded : Bool) (outcome : TranscribeOutcome)
    (transcription : String) (chunks : List Nat) : String × List Nat :=
  if !modelLoaded || chunks.isEmpty then (transcription, chunks)
  else
    match outcome with
    | .err => (transcription, chunks)
    | .ok t =>
      let newTranscription :=
        match t with
        | some txt => transcription ++ txt ++ " "
        | none => transcription
      let newChunks := if chunks.length > 10 then chunks.drop (chunks.length - 5) else chunks
      (newTranscription, newChunks)

end WhisperApp

namespace Whisper

/-- State of the `useWhisperTranscription` hook: the two text states,
the flags, and the buffered `audioChunksRef` (opaque blob identifiers). -/
structure WhisperState where
  isLoading : Bool
  isRecording : Bool
  transcription : String
  translation : String
  audioChunks : List Nat
deriving DecidableEq

/-- Outcome of one `pipeline(...)` construction attempt. -/
inductive Outcome where
  | ok
  | fail
deriving DecidableEq

/-- Result of a `loadModel` run: how many `pipeline` calls were made,
whether a transcriber ended up loaded, and the toasts shown in order. -/
structure LoadResult where
  attempts : Nat
  loaded : Bool
  toasts : List Toast
deriving DecidableEq

/-- `loadModel` of `useWhisperTranscription`: returns immediately when a
transcriber is already loaded; otherwise attempts the WebGPU pipeline
and, if that throws, automatically attempts a CPU pipeline as fallback. -/
def loadModel (alreadyLoaded : Bool) (webgpu cpu : Outcome) : LoadResult :=
  if alreadyLoaded then ⟨0, true, []⟩
  else
    let loading : Toast :=
      ⟨"Loading AI model", "Downloading Whisper model (first time only)...", false⟩
    match webgpu with
    | .ok => ⟨1, true, [loading, ⟨"Model loaded", "Ready to transcribe", false⟩]⟩
    | .fail =>
      let gpuFail : Toast := ⟨"Model loading failed", "Falling back to CPU mode...", true⟩
      match cpu with
      | .ok => ⟨2, true, [loading, gpuFail]⟩
      | .fail =>
        ⟨2, false, [loading, gpuFail, ⟨"Error", "Could not load transcription model", true⟩]⟩

/-- `processAudio` of `useWhisperTranscription`: early return when the
chunk buffer is empty or no transcriber is loaded; on a textful result
the text plus a space is appended; the `finally` block always empties
the chunk buffer and clears `isLoading`. -/
def processAudio (modelLoaded : Bool) (outcome : TranscribeOutcome)
    (s : WhisperState) : WhisperState :=
  if s.audioChunks.isEmpty || !modelLoaded then s
  else
    match outcome with
    | .err => { s with isLoading := false, audioChunks := [] }
    | .ok t =>
      match t with
      | some txt =>
        { s with transcription := s.transcription ++ txt ++ " ",
                 isLoading := false, audioChunks := [] }
      | none => { s with isLoading := false, audioChunks := [] }

/-- The JSON body `{ text, targetLanguage }` posted to the
`translate-text` function. -/
structure TranslateRequest where
  text : String
  targetLanguage : String
deriving DecidableEq

/-- Response of the translation call as the code distinguishes them: an
ok response carrying `translatedText`, a non-ok response whose JSON
error field yields `message`, or a thrown fetch error. -/
inductive TranslateResponse where
  | ok (translatedText : String)
  | httpError (message : String)
  | thrown
deriving DecidableEq

/-- `translateText`: early return with a destructive toast when the
trimmed transcription is empty (no request sent); otherwise posts
exactly `{ text: transcription, targetLanguage }`, stores
`data.translatedText` on success, and on a non-ok response or thrown
error leaves the translation unchanged and surfaces a destructive
toast.  Returns the new state, the request sent (if any), and the
toasts in order. -/
def translateText (s : WhisperState) (targetLanguage : String)
    (resp : TranslateResponse) :
    WhisperState × Option TranslateRequest × List Toast :=
  if jsTrim s.transcription == "" then
    (s, none, [⟨"Nothing to translate", "Please transcribe some audio first", true⟩])
  else
    let req : Option TranslateRequest := some ⟨s.transcription, targetLanguage⟩
    let translating : Toast :=
      ⟨"Translating", "Translating to " ++ targetLanguage ++ "...", false⟩
    match resp with
    | .ok t =>
      ({ s with translation := t, isLoading := false }, req,
       [translating, ⟨"Translation complete", "Translated to " ++ targetLanguage, false⟩])
    | .httpError m =>
      ({ s with isLoading := false }, req,
       [translating, ⟨"Translation failed", m, true⟩])
    | .thrown =>
      ({ s with isLoading := false }, req,
       [translating, ⟨"Translation failed", "Could not translate text", true⟩])

/-- `clearAll`: resets both text states and empties the chunk buffer. -/
def clearAll (s : WhisperState) : WhisperState :=
  { s with transcription := "", translation := "", audioChunks := [] }

end Whisper

namespace Realtime

/-- The export content of `RealtimeWhisperApp.exportTranscription`:
the Original/Translation composite when `translation` is truthy
(non-empty), otherwise the bare transcription. -/
def exportContent (transcription translation targetLanguage : String) : String :=
  if translation == "" then transcription
  else
    "Original:\n" ++ transcription ++ "\n\nTranslation (" ++ targetLanguage ++ "):\n"
      ++ translation

/-- `exportTranscription` of `RealtimeWhisperApp`: guard on the trimmed
content, then a `text/plain` blob named by `fileName`. -/
def exportTranscription (iso transcription translation targetLanguage : String) :
    Option ExportFile × Toast :=
  let content := exportContent transcription translation targetLanguage
  if jsTrim content == "" then
    (none, ⟨"Nothing to export", "Please record some audio first", true⟩)
  else
    (some ⟨WebSpeech.fileName iso, "text/plain", content⟩,
     ⟨"Export successful", "Transcription has been downloaded", false⟩)

end Realtime

/-! ## Theorems -/

open WebSpeech Logger Whisper WhisperApp in
theorem onresult_eq_append (results : List SpeechResult) :
    ∀ prev : String, onresult prev results = prev ++ finalsConcat results := by
  induction results with
  | nil =>
    intro prev
    simp [onresult, finalsConcat]
  | cons r rs ih =>
    intro prev
    show onresult (handleFinal prev r) rs = _
    rw [ih]
    by_cases h : r.isFinal
    · simp [handleFinal, finalsConcat, h, String.append_assoc]
    · simp [handleFinal, finalsConcat, h]

open WebSpeech Whisper in
/-- Claim C1: every handled final recognition result appends its
transcript followed by a single space; hence the previous transcription
is a prefix of the new one, and the transcription is the concatenation,
in arrival order, of all final transcripts each followed by a space.
The last conjunct covers the analogous append in
`useWhisperTranscription.processAudio`. -/
theorem final_segments_append_in_order :
    ∀ (prev : String) (results : List SpeechResult),
      onresult prev results = prev ++ finalsConcat results ∧
      (∃ suffix, onresult prev results = prev ++ suffix) ∧
      onresult "" results = finalsConcat results ∧
      (∀ (txt : String) (s : WhisperState),
        s.audioChunks ≠ [] →
        (processAudio true (TranscribeOutcome.ok (some txt)) s).transcription
          = s.transcription ++ txt ++ " ") := by
  intro prev results
  refine ⟨onresult_eq_append results prev,
    ⟨finalsConcat results, onresult_eq_append results prev⟩, ?_, ?_⟩
  · have h := onresult_eq_append results ""
    simpa using h
  · intro txt s hne
    have he : s.audioChunks.isEmpty = false := by simpa using hne
    simp [processAudio, he]

open WebSpeech Whisper in
/-- Witness for C1 at concrete inputs: a buffered chunk list that is
non-empty, with a textful transcription result. -/
theorem final_segments_append_in_order_witness :
    (processAudio true (TranscribeOutcome.ok (some "hi"))
        ⟨false, false, "a ", "", [1]⟩).transcription = "a " ++ "hi" ++ " " :=
  (final_segments_append_in_order "" []).2.2.2 "hi"
    ⟨false, false, "a ", "", [1]⟩ (by decide)

open WebSpeech in
/-- Claim C2: the copy, export and clear buttons are disabled exactly
when the trimmed transcription is empty, and `exportTranscription` on
trimmed-empty text produces no file, leaves the state unchanged and
surfaces a destructive toast. -/
theorem export_disabled_when_empty :
    ∀ (iso : String) (s : AppState),
      (exportDisabled s.transcription = true ↔ jsTrim s.transcription = "") ∧
      (copyDisabled s.transcription = true ↔ jsTrim s.transcription = "") ∧
      (clearDisabled s.transcription = true ↔ jsTrim s.transcription = "") ∧
      (jsTrim s.transcription = "" →
        (WebSpeech.exportTranscription iso s).1 = s ∧
        (WebSpeech.exportTranscription iso s).2.1 = none ∧
        (WebSpeech.exportTranscription iso s).2.2.destructive = true) := by
  intro iso s
  refine ⟨by simp [exportDisabled], by simp [copyDisabled], by simp [clearDisabled], ?_⟩
  intro h
  simp [WebSpeech.exportTranscription, h]

open WebSpeech in
/-- Witness for C2 at the empty transcription. -/
theorem export_disabled_when_empty_witness :
    (WebSpeech.exportTranscription "2026-01-01T00:00:00.000Z"
        ⟨false, false, 0, false, false, ""⟩).2.1 = none ∧
    (WebSpeech.exportTranscription "2026-01-01T00:00:00.000Z"
        ⟨false, false, 0, false, false, ""⟩).2.2.destructive = true := by
  have h := export_disabled_when_empty "2026-01-01T00:00:00.000Z"
    ⟨false, false, 0, false, false, ""⟩
  exact ⟨(h.2.2.2 (by decide)).2.1, (h.2.2.2 (by decide)).2.2⟩

open WebSpeech Whisper in
/-- Claim C6: `clearTranscription` resets the transcription to the empty
string and touches nothing else, and `clearAll` resets transcription,
translation and the chunk buffer and touches nothing else. -/
theorem clear_resets_text_only :
    ∀ (s : AppState) (w : WhisperState),
      (clearTranscription s).transcription = "" ∧
      (clearTranscription s).isRecording = s.isRecording ∧
      (clearTranscription s).isProcessing = s.isProcessing ∧
      (clearTranscription s).duration = s.duration ∧
      (clearTranscription s).timerOn = s.timerOn ∧
      (clearTranscription s).hasRecognition = s.hasRecognition ∧
      (clearAll w).transcription = "" ∧
      (clearAll w).translation = "" ∧
      (clearAll w).audioChunks = [] ∧
      (clearAll w).isLoading = w.isLoading ∧
      (clearAll w).isRecording = w.isRecording := by
  intro s w
  exact ⟨rfl, rfl, rfl, rfl, rfl, rfl, rfl, rfl, rfl, rfl, rfl⟩

open Logger in
/-- Claim C8: after `addLog` while capturing, the list holds at most
1000 entries with the new entry first and the previous entries (cut to
999) after it; `addLog` is a no-op when capture is off; `clearLogs`
empties the list. -/
theorem log_buffer_bounded_newest_first :
    ∀ (e : LogEntry) (logs : List LogEntry),
      (addLog true e logs).length ≤ 1000 ∧
      (addLog true e logs).head? = some e ∧
      (addLog true e logs).tail = logs.take 999 ∧
      addLog false e logs = logs ∧
      clearLogs logs = [] := by
  intro e logs
  refine ⟨?_, ?_, ?_, ?_, rfl⟩
  · simp [addLog]
  · simp [addLog]
  · simp [addLog]
  · simp [addLog]

open WebSpeech in
theorem iterate_tick_duration (n : Nat) :
    ∀ s : AppState, s.timerOn = true →
      (Nat.iterate tick n s).duration = s.duration + n ∧
      (Nat.iterate tick n s).timerOn = true := by
  induction n with
  | zero => intro s h; exact ⟨rfl, h⟩
  | succ k ih =>
    intro s h
    have hstep : Nat.iterate tick (k + 1) s = Nat.iterate tick k (tick s) := rfl
    have ht : (tick s).timerOn = true := by simp [tick, h]
    have hd : (tick s).duration = s.duration + 1 := by simp [tick, h]
    obtain ⟨ihd, iht⟩ := ih (tick s) ht
    rw [hstep]
    exact ⟨by rw [ihd, hd]; omega, iht⟩

open WebSpeech in
theorem iterate_tick_frozen (m : Nat) :
    ∀ s : AppState, s.timerOn = false → Nat.iterate tick m s = s := by
  induction m with
  | zero => intro s _; rfl
  | succ k ih =>
    intro s h
    have hfix : tick s = s := by simp [tick, h]
    show Nat.iterate tick k (tick s) = s
    rw [hfix]
    exact ih s h

open WebSpeech in
/-- Claim C3: `startRecording` resets the duration to 0 and installs the
interval; each firing of the installed interval increases the duration
by exactly 1, so after n ticks from a start the duration is n;
`stopRecording` while recording clears the interval, after which ticks
no longer change the state (hence the duration) until the next start. -/
theorem duration_timer_starts_ticks_stops :
    ∀ (s : AppState) (n : Nat),
      (startRecording true s).duration = 0 ∧
      (startRecording true s).timerOn = true ∧
      (∀ s2 : AppState, s2.timerOn = true → (tick s2).duration = s2.duration + 1) ∧
      (Nat.iterate tick n (startRecording true s)).duration = n ∧
      (s.isRecording = true → s.hasRecognition = true →
        (stopRecording s).timerOn = false ∧
        (stopRecording s).isRecording = false ∧
        ∀ m : Nat, Nat.iterate tick m (stopRecording s) = stopRecording s) := by
  intro s n
  have h0 : (startRecording true s).duration = 0 := by simp [startRecording]
  have hOn : (startRecording true s).timerOn = true := by simp [startRecording]
  refine ⟨h0, hOn, ?_, ?_, ?_⟩
  · intro s2 h2; simp [tick, h2]
  · have h := (iterate_tick_duration n (startRecording true s) hOn).1
    rw [h, h0]
    omega
  · intro hrec hhas
    have hstop : stopRecording s = { s with isRecording := false, timerOn := false } := by
      simp [stopRecording, hrec, hhas]
    refine ⟨by rw [hstop], by rw [hstop], ?_⟩
    intro m
    exact iterate_tick_frozen m (stopRecording s) (by rw [hstop])

open WebSpeech in
/-- Witness for C3: three ticks after a start reach duration 3, and a
stop from a live recording freezes the state against further ticks. -/
theorem duration_timer_starts_ticks_stops_witness :
    (Nat.iterate tick 3 (startRecording true ⟨false, false, 7, false, false, ""⟩)).duration = 3 ∧
    (stopRecording ⟨true, false, 5, true, true, "x"⟩).timerOn = false ∧
    Nat.iterate tick 4 (stopRecording ⟨true, false, 5, true, true, "x"⟩)
      = stopRecording ⟨true, false, 5, true, true, "x"⟩ := by
  have h1 := duration_timer_starts_ticks_stops ⟨false, false, 7, false, false, ""⟩ 3
  have h2 := duration_timer_starts_ticks_stops ⟨true, false, 5, true, true, "x"⟩ 0
  exact ⟨h1.2.2.2.1, (h2.2.2.2.2 rfl rfl).1, (h2.2.2.2.2 rfl rfl).2.2 4⟩

open Whisper WebSpeech in
/-- Claim C4 counterexample: the claim says a failed call is never
re-attempted automatically, yet when the WebGPU pipeline attempt fails
`loadModel` automatically makes a second pipeline attempt (the CPU
fallback), so at the concrete input below two attempts are made. -/
theorem load_retry_counterexample :
    ¬ (∀ g c : Outcome, (loadModel false g c).attempts ≤ 1) := by
  intro h
  have h2 := h Outcome.fail Outcome.ok
  have he : (loadModel false Outcome.fail Outcome.ok).attempts = 2 := rfl
  rw [he] at h2
  exact absurd h2 (by decide)

open Whisper WebSpeech in
/-- Claim C4 (amended): failures are caught locally and surfaced as
destructive toasts and none is fatal, but model loading re-attempts the
pipeline call once on CPU after a WebGPU failure (so at most two
attempts, and loading only fails overall when both fail), and
recognition is automatically restarted from `onend` exactly while
recording. -/
theorem errors_surfaced_with_bounded_retry :
    ∀ g c : Outcome,
      (loadModel false g c).attempts ≤ 2 ∧
      (loadModel true g c).attempts = 0 ∧
      (g = Outcome.fail → hasDestructiveToast (loadModel false g c).toasts = true) ∧
      (g = Outcome.fail → c = Outcome.fail →
        (loadModel false g c).loaded = false ∧ (loadModel false g c).attempts = 2) ∧
      ((loadModel false g c).loaded = false → g = Outcome.fail ∧ c = Outcome.fail) ∧
      onendRestart true = true ∧ onendRestart false = false := by
  intro g c
  cases g <;> cases c <;> decide

open Whisper in
/-- Witness for C4 (amended) at the double-failure input. -/
theorem errors_surfaced_with_bounded_retry_witness :
    hasDestructiveToast (loadModel false Outcome.fail Outcome.fail).toasts = true ∧
    (loadModel false Outcome.fail Outcome.fail).loaded = false := by
  have h := errors_surfaced_with_bounded_retry Outcome.fail Outcome.fail
  exact ⟨h.2.2.1 rfl, (h.2.2.2.1 rfl rfl).1⟩

open Whisper in
/-- Claim C5: `translateText` sends no request and changes no state when
the trimmed transcription is empty; otherwise it posts exactly
`{ text: transcription, targetLanguage }`; on a successful response the
translation state becomes the returned `translatedText`; on a non-ok
response or a thrown error the translation is left unchanged and a
destructive toast is surfaced. -/
theorem translate_request_response_contract :
    ∀ (s : WhisperState) (lang : String) (resp : TranslateResponse),
      (jsTrim s.transcription = "" →
        (translateText s lang resp).2.1 = none ∧
        (translateText s lang resp).1 = s ∧
        hasDestructiveToast (translateText s lang resp).2.2 = true) ∧
      (jsTrim s.transcription ≠ "" →
        (translateText s lang resp).2.1 = some ⟨s.transcription, lang⟩ ∧
        (∀ t : String, resp = TranslateResponse.ok t →
          (translateText s lang resp).1.translation = t) ∧
        ((resp = TranslateResponse.thrown ∨ ∃ m, resp = TranslateResponse.httpError m) →
          (translateText s lang resp).1.translation = s.translation ∧
          hasDestructiveToast (translateText s lang resp).2.2 = true)) := by
  intro s lang resp
  constructor
  · intro h
    simp [translateText, h, hasDestructiveToast]
  · intro h
    refine ⟨?_, ?_, ?_⟩
    · cases resp <;> simp [translateText, h, hasDestructiveToast]
    · intro t hresp
      subst hresp
      simp [translateText, h]
    · intro hresp
      rcases hresp with hresp | ⟨m, hresp⟩ <;> subst hresp <;>
        simp [translateText, h, hasDestructiveToast]

open Whisper in
/-- Witness for C5: a thrown translation error at a non-empty
transcription leaves the translation unchanged and posts the exact
request body. -/
theorem translate_request_response_contract_witness :
    (translateText ⟨false, false, "hola", "", []⟩ "spanish" TranslateResponse.thrown).2.1
      = some ⟨"hola", "spanish"⟩ ∧
    (translateText ⟨false, false, "hola", "", []⟩ "spanish"
        TranslateResponse.thrown).1.translation = "" := by
  have h := translate_request_response_contract ⟨false, false, "hola", "", []⟩
    "spanish" TranslateResponse.thrown
  have hne : jsTrim "hola" ≠ "" := by decide
  exact ⟨(h.2 hne).1, ((h.2 hne).2.2 (Or.inl rfl)).1⟩

open WebSpeech in
/-- Claim C7: a produced export file is a `text/plain` blob named
`transcription-` followed by the first 19 characters of the ISO
date-time with every colon replaced by a dash and the suffix `.txt`,
and its content is exactly the current transcription (in the realtime
variant the Original/Translation composite when a translation exists);
`copyToClipboard` hands exactly the current transcription to the
clipboard.  The last conjunct evaluates the name at a concrete
date-time. -/
theorem export_file_and_clipboard_exact :
    ∀ (iso : String) (s : AppState) (transcription translation lang : String),
      (jsTrim s.transcription ≠ "" →
        (WebSpeech.exportTranscription iso s).2.1 =
          some ⟨"transcription-" ++ dashColons (jsSlice19 iso) ++ ".txt", "text/plain",
                s.transcription⟩) ∧
      (translation ≠ "" →
        Realtime.exportContent transcription translation lang =
          "Original:\n" ++ transcription ++ "\n\nTranslation (" ++ lang ++ "):\n"
            ++ translation) ∧
      (translation = "" →
        Realtime.exportContent transcription translation lang = transcription) ∧
      (jsTrim (Realtime.exportContent transcription translation lang) ≠ "" →
        (Realtime.exportTranscription iso transcription translation lang).1 =
          some ⟨fileName iso, "text/plain",
                Realtime.exportContent transcription translation lang⟩) ∧
      (jsTrim transcription ≠ "" → copyToClipboard transcription = some transcription) ∧
      fileName "2026-10-11T12:34:56.789Z" = "transcription-2026-10-11T12-34-56.txt" := by
  intro iso s transcription translation lang
  refine ⟨?_, ?_, ?_, ?_, ?_, by decide⟩
  · intro h
    simp [WebSpeech.exportTranscription, h, fileName]
  · intro h
    simp [Realtime.exportContent, h]
  · intro h
    simp [Realtime.exportContent, h]
  · intro h
    simp [Realtime.exportTranscription, h]
  · intro h
    simp [copyToClipboard, h]

open WebSpeech in
/-- Witness for C7 at concrete inputs, the export file fully
evaluated. -/
theorem export_file_and_clipboard_exact_witness :
    (WebSpeech.exportTranscription "2026-10-11T12:34:56.789Z"
        ⟨false, false, 0, false, false, "hello"⟩).2.1 =
      some ⟨"transcription-2026-10-11T12-34-56.txt", "text/plain", "hello"⟩ ∧
    Realtime.exportContent "hi" "hola" "spanish" =
      "Original:\nhi\n\nTranslation (spanish):\nhola" ∧
    copyToClipboard "hi" = some "hi" := by
  have h := export_file_and_clipboard_exact "2026-10-11T12:34:56.789Z"
    ⟨false, false, 0, false, false, "hello"⟩ "hi" "hola" "spanish"
  refine ⟨?_, ?_, h.2.2.2.2.1 (by decide)⟩
  · rw [h.1 (by decide)]
    decide
  · rw [h.2.1 (by decide)]
    decide

open WhisperApp in
/-- Claim C9 counterexample: on a run where transcription throws, the
catch block is reached before the trimming line, so an 11-chunk buffer
is retained unchanged and exceeds the claimed bound of 10. -/
theorem chunk_trim_skipped_on_error :
    ¬ ((processAudioChunk true TranscribeOutcome.err "" (List.replicate 11 0)).2.length
        ≤ 10) := by
  decide

open WhisperApp in
/-- Claim C9 (amended): `processAudioChunk` returns immediately without
changing state when the model is not loaded or the buffer is empty, and
leaves both the transcription and the buffer unchanged when processing
throws; after each non-throwing run the retained buffer holds at most
10 chunks, being cut to the most recent 5 whenever its length exceeded
10. -/
theorem chunk_buffer_bounded_on_success :
    ∀ (o : TranscribeOutcome) (txt : Option String) (t : String) (chunks : List Nat),
      processAudioChunk false o t chunks = (t, chunks) ∧
      processAudioChunk true o t [] = (t, []) ∧
      processAudioChunk true TranscribeOutcome.err t chunks = (t, chunks) ∧
      (processAudioChunk true (TranscribeOutcome.ok txt) t chunks).2.length ≤ 10 ∧
      (chunks.length > 10 →
        (processAudioChunk true (TranscribeOutcome.ok txt) t chunks).2 =
          chunks.drop (chunks.length - 5) ∧
        (processAudioChunk true (TranscribeOutcome.ok txt) t chunks).2.length = 5) := by
  intro o txt t chunks
  refine ⟨by simp [processAudioChunk], by simp [processAudioChunk], ?_, ?_, ?_⟩
  · by_cases hc : chunks.isEmpty
    · have : chunks = [] := by simpa [List.isEmpty_iff] using hc
      subst this
      simp [processAudioChunk]
    · simp [processAudioChunk, hc]
  · by_cases hc : chunks.isEmpty
    · have : chunks = [] := by simpa [List.isEmpty_iff] using hc
      subst this
      simp [processAudioChunk]
    · by_cases hl : chunks.length > 10
      · simp [processAudioChunk, hc, hl]
        omega
      · simp [processAudioChunk, hc, hl]
        omega
  · intro hl
    have hc : chunks.isEmpty = false := by
      rcases chunks with _ | ⟨a, l⟩
      · simp at hl
      · rfl
    constructor
    · simp [processAudioChunk, hc, hl]
    · simp [processAudioChunk, hc, hl]
      omega

open WhisperApp in
/-- Witness for C9 (amended) at an oversized 11-chunk buffer with a
textful result: the buffer is cut to the most recent 5. -/
theorem chunk_buffer_bounded_on_success_witness :
    (processAudioChunk true (TranscribeOutcome.ok (some "hi")) ""
        [1, 2, 3, 4, 5, 6, 7, 8, 9, 10, 11]).2 = [7, 8, 9, 10, 11] := by
  have h := chunk_buffer_bounded_on_success (TranscribeOutcome.ok (some "hi"))
    (some "hi") "" [1, 2, 3, 4, 5, 6, 7, 8, 9, 10, 11]
  rw [(h.2.2.2.2 (by decide)).1]
  decide

theorem toDigitsCore_ds_len_le (b : Nat) :
    ∀ (fuel n : Nat) (ds : List Char),
      ds.length ≤ (Nat.toDigitsCore b fuel n ds).length := by
  intro fuel
  induction fuel with
  | zero => intro n ds; simp [Nat.toDigitsCore]
  | succ f ih =>
    intro n ds
    simp only [Nat.toDigitsCore]
    split
    · simp
    · exact le_trans (by simp) (ih (n / b) (Nat.digitChar (n % b) :: ds))

theorem toDigitsCore_len_ge_one (b : Nat) (f n : Nat) (ds : List Char) :
    ds.length + 1 ≤ (Nat.toDigitsCore b (f + 1) n ds).length := by
  simp only [Nat.toDigitsCore]
  split
  · simp
  · have h := toDigitsCore_ds_len_le b f (n / b) (Nat.digitChar (n % b) :: ds)
    simpa using h

theorem toDigitsCore_len_ge_two (f n : Nat) (ds : List Char) (hn : 10 ≤ n) :
    ds.length + 2 ≤ (Nat.toDigitsCore 10 (f + 2) n ds).length := by
  simp only [Nat.toDigitsCore]
  have h10 : ¬ (n / 10 = 0) := by omega
  rw [if_neg h10]
  have h := toDigitsCore_len_ge_one 10 f (n / 10) (Nat.digitChar (n % 10) :: ds)
  simpa using h

theorem toDigitsCore_len_ge_three (f n : Nat) (ds : List Char) (hn : 100 ≤ n) :
    ds.length + 3 ≤ (Nat.toDigitsCore 10 (f + 3) n ds).length := by
  simp only [Nat.toDigitsCore]
  have h10 : ¬ (n / 10 = 0) := by omega
  rw [if_neg h10]
  have h2 : 10 ≤ n / 10 := by omega
  have h := toDigitsCore_len_ge_two f (n / 10) (Nat.digitChar (n % 10) :: ds) h2
  simpa using h

theorem natRepr_len_ge_three (m : Nat) (hm : 100 ≤ m) : 3 ≤ (Nat.repr m).length := by
  have h : Nat.repr m = (Nat.toDigitsCore 10 (m + 1) m []).asString := rfl
  have hlen : (Nat.repr m).length = (Nat.toDigitsCore 10 (m + 1) m []).length := by
    rw [h]; rfl
  rw [hlen]
  obtain ⟨f, hf⟩ : ∃ f, m + 1 = f + 3 := ⟨m - 2, by omega⟩
  rw [hf]
  have h3 := toDigitsCore_len_ge_three f m [] hm
  simpa using h3

open WebSpeech in
/-- Claim C10: `formatDuration` renders a nonnegative integer seconds
count as `floor(n/60)` and `n mod 60`, each in decimal left-padded with
zeros to at least two characters; `padStart` only adds characters (the
original rendering stays as a suffix and the length never shrinks), so
the minutes field is never truncated, and for `n ≥ 6000` the minutes
rendering has three or more digits. -/
theorem formatDuration_pads_without_truncation :
    ∀ n : Nat,
      formatDuration n =
        padStart 2 '0' (toString (n / 60)) ++ ":" ++ padStart 2 '0' (toString (n % 60)) ∧
      (∀ s : String,
        (padStart 2 '0' s).length = max 2 s.length ∧
        ∃ pad, padStart 2 '0' s = pad ++ s) ∧
      (6000 ≤ n → 3 ≤ (toString (n / 60) : String).length) ∧
      formatDuration 6000 = "100:00" ∧
      formatDuration 125 = "02:05" := by
  intro n
  refine ⟨rfl, ?_, ?_, by decide, by decide⟩
  · intro s
    constructor
    · simp [padStart]
      omega
    · exact ⟨String.mk (List.replicate (2 - s.length) '0'), rfl⟩
  · intro h
    have hm : 100 ≤ n / 60 := by omega
    have hr : (toString (n / 60) : String) = Nat.repr (n / 60) := rfl
    rw [hr]
    exact natRepr_len_ge_three (n / 60) hm

open WebSpeech in
/-- Witness for C10 at 6000 seconds: the minutes field has three
digits. -/
theorem formatDuration_pads_without_truncation_witness :
    3 ≤ (toString (6000 / 60) : String).length :=
  (formatDuration_pads_without_truncation 6000).2.2.1 (by decide)

end RWhiSymp
